import Mathlib

/-!
# Verification of the cblog console progress printer and logging glue

Shallow embedding of `console.go` (the `Console` progress printer) and of
the writer glue in the second source file (`MultipleWriter.Write`,
`UnixSocketLogger.Write`), together with theorems settling the frozen
claims about them.

Modelling conventions:
* Strings are `List Char` (`Str`), mirroring Go strings for the operations
  used by the code (`strings.HasPrefix/HasSuffix/TrimSpace/Repeat`,
  concatenation, `len`).
* A time instant is an `Int` of nanoseconds since the Unix epoch;
  `time.Time.Unix()` is floor division by `10^9`.  Each call that reads
  the clock several nanoseconds apart is modelled with a single instant.
* `atomic.Int32` values are `Int`s kept in two's-complement range by `i32`
  (wrap-around on overflow, as in Go).
* Go's `fmt.Sprintf` is modelled for the `%s`/`%d` verbs, the only verbs
  the code uses: each verb consumes the next argument (arguments are
  pre-rendered to `Str`); a verb with no argument left inserts a
  `%!(MISSING)` marker and leftover arguments append a `%!(EXTRA)` marker
  at the end, as Go does.  Other verbs are copied literally.
* The final `fmt.Fprintf(c.writer, message)` is modelled as writing
  `message` verbatim; Go would re-interpret residual verbs in the already
  formatted text, which no claim depends on.
* `cbutil.DateTimeFormat` rendering and `time.Duration.String()` are
  external display-only helpers; they are modelled by injective stand-ins
  whose exact text no claim depends on.
* Goroutines (`AutoPrint`) and the mutex are not modelled; all theorems
  are about the sequential semantics of single calls.
-/

/-- Go strings, as lists of characters. -/
abbrev Str := List Char

/-- The whitespace test used by `strings.TrimSpace` (ASCII part; the code
never feeds it non-ASCII whitespace in any claim). -/
def isSpaceChar (c : Char) : Bool :=
  c = ' ' ∨ c = '\t' ∨ c = '\n' ∨ c = '\x0b' ∨ c = '\x0c' ∨ c = '\r'

/-- `strings.TrimSpace`: strip leading and trailing whitespace. -/
def trimSpace (s : Str) : Str :=
  ((s.dropWhile isSpaceChar).reverse.dropWhile isSpaceChar).reverse

/-- `strings.HasSuffix(s, "\n")`. -/
def endsNL (s : Str) : Bool := s.getLast? = some '\n'

/-- `strings.HasPrefix(s, "\r")`. -/
def startsCR (s : Str) : Bool := s.head? = some '\r'

/-- Marker Go appends when `Sprintf` is given surplus arguments. -/
def extraMark : Str := "%!(EXTRA)".data

/-- Marker Go inserts when a verb has no argument. -/
def missingMark : Str := "%!(MISSING)".data

/-- Model of `fmt.Sprintf` for the `%s` and `%d` verbs (the only verbs the
code uses); arguments are pre-rendered strings. -/
def sprintf : Str → List Str → Str
  | [], args => if args = [] then [] else extraMark
  | ['%'], args => '%' :: (if args = [] then [] else extraMark)
  | '%' :: v :: rest2, args =>
    if v = 's' ∨ v = 'd' then
      match args with
      | a :: as => a ++ sprintf rest2 as
      | [] => missingMark ++ sprintf rest2 []
    else '%' :: sprintf (v :: rest2) args
  | c :: rest, args => c :: sprintf rest args

/-- Two's-complement wrap of an `Int` into the `int32` range, modelling Go
`int32` arithmetic. -/
def i32 (x : Int) : Int := (x + 2 ^ 31) % 2 ^ 32 - 2 ^ 31

/-- Go's truncated (toward-zero) integer division, used for `int32`,
`int64` and `time.Duration` division. -/
def goDiv (a b : Int) : Int := Int.tdiv a b

/-- `time.Time.Unix()` for an instant in nanoseconds. -/
def unixSec (tNs : Int) : Int := Int.fdiv tNs 1000000000

/-- Nanoseconds-since-epoch of Go's zero `time.Time` (January 1, year 1
UTC); `time.Time.IsZero` start fields are modelled as `none`. -/
def goZeroTimeNs : Int := -62135596800 * 1000000000

/-- Stand-in for `c.start.Format(cbutil.DateTimeFormat)`; the exact
rendering is external display text no claim depends on. -/
def fmtDateTime (tNs : Int) : Str := (toString tNs).data

/-- Stand-in for `time.Duration.String()`; display text only. -/
def fmtDuration (dNs : Int) : Str := (toString dNs).data ++ "ns".data

/-- Rendering of an integer argument for a `%d` verb. -/
def renderInt (i : Int) : Str := (toString i).data

/-- `time.Duration.Round(time.Second)`: nearest second, ties away from
zero (display only). -/
def roundToSec (d : Int) : Int :=
  if 0 ≤ d then
    let r := d % 1000000000
    if r + r < 1000000000 then d - r else d - r + 1000000000
  else
    let r := (-d) % 1000000000
    if r + r < 1000000000 then d + r else d + r - 1000000000

/-- The `Console` state (`console.go` lines 14-29).  `writer` is the
output sink and is represented by the emitted text the operations return;
`printFunc` is a zero-argument provider, represented by the string it
returns; the mutex is omitted (sequential model). -/
structure Console where
  replace : Bool
  limit : Bool
  trackProgress : Bool
  prefixLabel : Str
  start : Option Int
  lastPrint : Int
  lastPrintLen : Nat
  progress : Int
  lastProgress : Int
  printFunc : Option Str
  firstTick : Bool
  done : Bool
  deriving DecidableEq

/-- `NewConsole` (lines 31-39): zero-valued tracking state. -/
def NewConsole (replace limit progress : Bool) : Console :=
  { replace := replace, limit := limit, trackProgress := progress,
    prefixLabel := [], start := none, lastPrint := 0, lastPrintLen := 0,
    progress := 0, lastProgress := 0, printFunc := none,
    firstTick := false, done := false }

/-- The start time actually read by the code: the stored instant, or Go's
zero `time.Time` when unset. -/
def startNsOf (c : Console) : Int := c.start.getD goZeroTimeNs

/-- `Print` step 1 (lines 141-146): when progress is tracked, initialise
the start time if unset and increment the `int32` completion counter. -/
def track1 (c : Console) (t : Int) : Console :=
  if c.trackProgress then
    let c1 := if c.start = none then { c with start := some t } else c
    { c1 with progress := i32 (c1.progress + 1) }
  else c

/-- The `avgPs` throughput figure (lines 169-172): `int32` division of the
counter by the wrapped elapsed seconds.  (Go would panic if the wrapped
elapsed seconds were zero; `Int.tdiv` then yields 0, a divergence only
reachable after 2^31 seconds of elapsed time.) -/
def avgPs (c : Console) (t : Int) : Int :=
  if unixSec (startNsOf c) < unixSec t then
    goDiv c.progress (i32 (unixSec t - unixSec (startNsOf c)))
  else 0

/-- `Print` steps 3-5 (lines 157-178): provider substitution, progress
annotation of the template and argument list, prefix prepend.  Returns the
message template and argument list passed on to rendering. -/
def msgStage (c : Console) (t : Int) (m : Str) (a : List Str) : Str × List Str :=
  let m1 := if m = [] ∧ a = [] ∧ c.printFunc.isSome then c.printFunc.getD [] else m
  let p :=
    if c.trackProgress then
      ("Running %s | %d | ".data ++ m1 ++ " | %d/s Avg %d/s".data,
        fmtDuration (roundToSec (t - startNsOf c)) :: renderInt c.progress ::
          (a ++ [renderInt (i32 (c.progress - c.lastProgress)), renderInt (avgPs c t)]))
    else (m1, a)
  if c.prefixLabel ≠ [] then (c.prefixLabel ++ " | ".data ++ p.1, p.2) else p

/-- The formatted text of the replace-mode branch before padding (lines
182-187): force a leading carriage return, then substitute arguments. -/
def replFormatted (c : Console) (t : Int) (m : Str) (a : List Str) : Str :=
  let p := msgStage c t m a
  let m1 := if ¬ startsCR p.1 then '\r' :: p.1 else p.1
  if p.2 ≠ [] then sprintf m1 p.2 else m1

/-- The padding count of the replace-mode branch (line 193):
`c.lastPrintLen - len(TrimSpace(message)) + 1`, where the trailing newline
has already been peeled off the formatted text when present. -/
def padCountOf (c : Console) (t : Int) (m : Str) (a : List Str) : Int :=
  let F := replFormatted c t m a
  let m2 := if endsNL (msgStage c t m a).1 then F.dropLast else F
  (c.lastPrintLen : Int) - ((trimSpace m2).length : Int) + 1

/-- `Print` steps 3-11 (lines 157-217): everything after the rate-limit
gate.  Returns the updated state and the text written to the sink. -/
def emitBody (c : Console) (t : Int) (m : Str) (a : List Str) : Console × Str :=
  let p := msgStage c t m a
  let newLine := endsNL p.1
  let msg :=
    if c.replace then
      let F := replFormatted c t m a
      if F.length ≤ c.lastPrintLen then
        let m2 := if newLine then F.dropLast else F
        let m3 := m2 ++ List.replicate (padCountOf c t m a).toNat ' '
        if newLine then m3 ++ ['\n'] else m3
      else F
    else
      let m1 := if ¬ newLine then p.1 ++ ['\n'] else p.1
      if p.2 ≠ [] then sprintf m1 p.2 else m1
  let c2 := { c with
    lastPrintLen := if ¬ newLine then (trimSpace msg).length else 0,
    lastProgress := if c.trackProgress then c.progress else c.lastProgress }
  (c2, msg)

/-- The console state in effect for the formatting steps of a `Print`
call that passed the rate-limit gate: progress tracking applied, and the
accepted epoch recorded when rate limiting is on (line 154). -/
def printCtx (c : Console) (t : Int) : Console :=
  let c1 := track1 c t
  if c1.limit then { c1 with lastPrint := unixSec t } else c1

/-- `Console.Print` (lines 140-218).  `t` is the instant of the call; the
second component is the text written to the sink, `none` when the call is
discarded by rate limiting. -/
def Print (c : Console) (t : Int) (m : Str) (a : List Str) : Console × Option Str :=
  let c1 := track1 c t
  if c1.limit ∧ unixSec t ≤ c1.lastPrint then (c1, none)
  else
    let r := emitBody (printCtx c t) t m a
    (r.1, some r.2)

/-- `Console.Println` (lines 220-226): `Print` with a forced trailing
newline (the two Go branches pass the same data in this model). -/
def Println (c : Console) (t : Int) (m : Str) (a : List Str) : Console × Option Str :=
  Print c t (m ++ ['\n']) a

/-- `Console.Tick` (lines 130-138). -/
def Tick (c : Console) (t : Int) : Console × Option Str :=
  let c1 :=
    if ¬ c.firstTick then
      let c2 := { c with firstTick := true }
      if c2.trackProgress then { c2 with start := some t } else c2
    else c
  Print c1 t [] []

/-- `Console.Start` (lines 49-64): clear the finished flag, record start
time and prefix, print the banner with rate limiting and progress tracking
transiently disabled, restore them, reset the counter. -/
def Start (c : Console) (t : Int) (pfx : Str) : Console × List Str :=
  let c1 := { c with done := false, start := some t, prefixLabel := pfx }
  let limit := c1.limit
  let tp := c1.trackProgress
  let c2 := { c1 with limit := false, trackProgress := false }
  let r := Println c2 t "Start: %s".data [fmtDateTime t]
  let c3 := { r.1 with limit := limit, trackProgress := tp, progress := 0 }
  (c3, r.2.toList)

/-- The average-per-unit duration printed by `Finish` (lines 83-88):
truncated division of the total duration by the counter, raised to 1 when
it comes out 0. -/
def finishAvg (c : Console) (t : Int) : Int :=
  let avg := goDiv (t - startNsOf c) c.progress
  if avg = 0 then 1 else avg

/-- The units-per-second figure printed by `Finish` (line 96):
`time.Second / avgDuration` under truncated division. -/
def finishUps (c : Console) (t : Int) : Int := goDiv 1000000000 (finishAvg c t)

/-- `Console.Finish` (lines 66-128).  `extraMessage` models the variadic
`...interface{}` tail restricted to strings (the code ignores a non-string
head by a failed type assertion; no claim involves one).  Returns the
updated state and the lines written. -/
def Finish (c : Console) (t : Int) (printStats : Bool) (extraMessage : List Str) :
    Console × List Str :=
  let c0 := { c with done := true }
  if printStats ∧ ¬ c0.trackProgress then (c0, [])
  else
    let p1 :=
      if printStats then
        let limit := c0.limit
        let tp := c0.trackProgress
        let cz := { c0 with limit := false, trackProgress := false }
        if cz.progress = 0 then
          let r := Println cz t "Finish: %s | 0 units complete".data [fmtDateTime t]
          ({ r.1 with limit := limit, trackProgress := tp }, r.2.toList)
        else
          let r := Println cz t
            "Finish: %s | %d units complete in %s | avg %s per unit | avg %d/s".data
            [fmtDateTime t, renderInt cz.progress,
              fmtDuration (t - startNsOf cz), fmtDuration (finishAvg cz t),
              renderInt (finishUps cz t)]
          ({ r.1 with limit := limit, trackProgress := tp }, r.2.toList)
      else (c0, [])
    let cA := p1.1
    -- `printFunc` is never written by any operation, so reading it from
    -- the entry state is the value Go's check at line 104 sees.
    let p2 :=
      if c0.printFunc.isSome ∨ extraMessage ≠ [] then
        let limit := cA.limit
        let tp := cA.trackProgress
        let cB := { cA with limit := false, trackProgress := false }
        let r :=
          match c0.printFunc with
          | some msg => Println cB t ("Finish: ".data ++ msg) []
          | none =>
            match extraMessage with
            | [] => (cB, none)
            | msg :: rest =>
              if rest ≠ [] then Println cB t ("Finish: ".data ++ msg) rest
              else Println cB t ("Finish: ".data ++ msg) []
        ({ r.1 with limit := limit, trackProgress := tp }, r.2.toList)
      else (cA, [])
    let cC := { p2.1 with lastPrint := 0, progress := 0 }
    (cC, p1.2 ++ p2.2)

/-- `MultipleWriter.Write` (second source file, lines 19-28): fan the
payload out to each writer in order, stopping at the first error.  A
writer is a function from the payload to its `(n, err)` result; the second
component of the return value counts how many writers were invoked.  The
loop-local `n, e := writer.Write(p)` shadows the named return `n`, so the
success path returns the never-assigned outer `n = 0`. -/
def mwWrite (ws : List (Str → Nat × Option String)) (p : Str) :
    (Nat × Option String) × Nat :=
  match ws with
  | [] => ((0, none), 0)
  | w :: rest =>
    let r := w p
    if r.2.isSome then (r, 1)
    else
      let q := mwWrite rest p
      (q.1, q.2 + 1)

/-- Environment of a single `UnixSocketLogger.Write` call: the outcome of
the k-th `net.Dial` attempt and of the k-th write attempt on a given
connection (connections are numbered). -/
structure SockEnv where
  dialRes : Nat → Option Nat
  writeRes : Nat → Nat → Str → Nat × Option String

/-- `UnixSocketLogger.Write` (second source file, lines 327-343) together
with `initSocket` (lines 345-352): dial when the socket is nil; silently
drop the message when it is still nil; on write failure re-dial once (a
failed dial leaves the old socket in place) and retry the write exactly
once, returning the retry's result.  Returns the new socket state, the
`(n, err)` result, and the list of connections written to, in order. -/
def uWrite (sock : Option Nat) (env : SockEnv) (msg : Str) :
    Option Nat × (Nat × Option String) × List Nat :=
  let payload := msg ++ ['\n']
  match sock with
  | none =>
    match env.dialRes 0 with
    | none => (none, (0, none), [])
    | some c =>
      let r := env.writeRes c 0 payload
      if r.2.isSome then
        match env.dialRes 1 with
        | none => (some c, env.writeRes c 1 payload, [c, c])
        | some c2 => (some c2, env.writeRes c2 1 payload, [c, c2])
      else (some c, r, [c])
  | some c =>
    let r := env.writeRes c 0 payload
    if r.2.isSome then
      match env.dialRes 0 with
      | none => (some c, env.writeRes c 1 payload, [c, c])
      | some c2 => (some c2, env.writeRes c2 1 payload, [c, c2])
    else (some c, r, [c])

/-- A sequence of `Print` calls (instant, template, arguments), applied in
order with no intervening `Start` or `Finish`. -/
def printSeq (c : Console) : List (Int × Str × List Str) → Console
  | [] => c
  | i :: rest => printSeq (Print c i.1 i.2.1 i.2.2).1 rest

/-! ## Helper lemmas -/

/-- `x` is its own `int32` wrap while in range. -/
theorem i32_eq_self {x : Int} (h1 : -(2 ^ 31) ≤ x) (h2 : x < 2 ^ 31) : i32 x = x := by
  unfold i32
  have : (x + 2 ^ 31) % 2 ^ 32 = x + 2 ^ 31 := Int.emod_eq_of_lt (by omega) (by omega)
  omega

theorem length_dropWhile_le (p : Char → Bool) (l : Str) :
    (l.dropWhile p).length ≤ l.length := by
  induction l with
  | nil => simp
  | cons c l ih =>
    by_cases h : p c
    · simp only [List.dropWhile_cons, h, if_true, List.length_cons]
      exact ih.trans (Nat.le_succ _)
    · simp [List.dropWhile_cons, h]

theorem trimSpace_length_le (s : Str) : (trimSpace s).length ≤ s.length := by
  unfold trimSpace
  calc ((s.dropWhile isSpaceChar).reverse.dropWhile isSpaceChar).reverse.length
      = ((s.dropWhile isSpaceChar).reverse.dropWhile isSpaceChar).length := by
        rw [List.length_reverse]
    _ ≤ (s.dropWhile isSpaceChar).reverse.length := length_dropWhile_le _ _
    _ = (s.dropWhile isSpaceChar).length := by rw [List.length_reverse]
    _ ≤ s.length := length_dropWhile_le _ _

theorem endsNL_concat (l : Str) : endsNL (l ++ ['\n']) = true := by
  simp [endsNL, List.getLast?_concat]

/-- A format string without `%` characters. -/
def pctFree (l : Str) : Prop := ∀ ch ∈ l, ch ≠ '%'

theorem sprintf_cons_ne (c : Char) (rest : Str) (args : List Str) (h : c ≠ '%') :
    sprintf (c :: rest) args = c :: sprintf rest args := by
  cases rest with
  | nil => simp [sprintf, h]
  | cons v r => simp [sprintf, h]

theorem sprintf_pct_nonverb (v : Char) (rest : Str) (args : List Str)
    (hs : v ≠ 's') (hd : v ≠ 'd') :
    sprintf ('%' :: v :: rest) args = '%' :: sprintf (v :: rest) args := by
  simp [sprintf, hs, hd]

theorem sprintf_pctFree_append (l : Str) (hl : pctFree l) (rest : Str) (args : List Str) :
    sprintf (l ++ rest) args = l ++ sprintf rest args := by
  induction l with
  | nil => rfl
  | cons c l ih =>
    have hc : c ≠ '%' := hl c (by simp)
    have hl' : pctFree l := fun ch hch => hl ch (by simp [hch])
    simp [sprintf_cons_ne c _ args hc, ih hl']

theorem infix_cons_ext {l w : Str} (a : Char) (h : l <:+: w) : l <:+: a :: w :=
  h.trans (List.suffix_cons a w).isInfix

theorem infix_append_ext {l w : Str} (pre : Str) (h : l <:+: w) : l <:+: pre ++ w :=
  h.trans (List.suffix_append pre w).isInfix

/-- A `%`-free segment of a format string whose first character is not a
verb letter survives `sprintf` substitution as an infix of the result. -/
theorem sprintf_infix_mid (sub : Str) (hp : pctFree sub)
    (hs : sub.head? ≠ some 's') (hd : sub.head? ≠ some 'd') :
    ∀ n u v args, u.length ≤ n → sub <:+: sprintf (u ++ (sub ++ v)) args := by
  have base : ∀ v args, sub <:+: sprintf (sub ++ v) args := by
    intro v args
    rw [sprintf_pctFree_append sub hp v args]
    exact (List.prefix_append sub _).isInfix
  intro n
  induction n with
  | zero =>
    intro u v args hu
    have : u = [] := List.length_eq_zero.mp (Nat.le_zero.mp hu)
    subst this
    exact base v args
  | succ n ih =>
    intro u v args hu
    cases u with
    | nil => exact base v args
    | cons x u' =>
      by_cases hx : x = '%'
      · subst hx
        cases u' with
        | nil =>
          cases sub with
          | nil => exact List.nil_infix
          | cons s0 sub' =>
            have hs0s : s0 ≠ 's' := by simpa using hs
            have hs0d : s0 ≠ 'd' := by simpa using hd
            rw [show ('%' :: ([] : Str)) ++ ((s0 :: sub') ++ v) =
              '%' :: s0 :: (sub' ++ v) from by simp]
            rw [sprintf_pct_nonverb s0 (sub' ++ v) args hs0s hs0d]
            exact infix_cons_ext '%'
              (by simpa using base v args)
        | cons y u'' =>
          by_cases hv : y = 's' ∨ y = 'd'
          · have heq : ('%' :: y :: u'') ++ (sub ++ v) =
                '%' :: y :: (u'' ++ (sub ++ v)) := by simp
            rw [heq]
            cases args with
            | nil =>
              rw [show sprintf ('%' :: y :: (u'' ++ (sub ++ v))) [] =
                missingMark ++ sprintf (u'' ++ (sub ++ v)) [] from by simp [sprintf, hv]]
              exact infix_append_ext missingMark
                (ih u'' v [] (by simp at hu; omega))
            | cons a as =>
              rw [show sprintf ('%' :: y :: (u'' ++ (sub ++ v))) (a :: as) =
                a ++ sprintf (u'' ++ (sub ++ v)) as from by simp [sprintf, hv]]
              exact infix_append_ext a
                (ih u'' v as (by simp at hu; omega))
          · push_neg at hv
            have heq : ('%' :: y :: u'') ++ (sub ++ v) =
                '%' :: y :: (u'' ++ (sub ++ v)) := by simp
            rw [heq, sprintf_pct_nonverb y _ args hv.1 hv.2]
            have : sub <:+: sprintf ((y :: u'') ++ (sub ++ v)) args :=
              ih (y :: u'') v args (by simp at hu ⊢; omega)
            exact infix_cons_ext '%' (by simpa using this)
      · rw [show (x :: u') ++ (sub ++ v) = x :: (u' ++ (sub ++ v)) from by simp,
          sprintf_cons_ne x _ args hx]
        exact infix_cons_ext x (ih u' v args (by simp at hu; omega))

/-- An infix occurrence with one following character survives `dropLast`. -/
theorem infix_dropLast {sub : Str} {ch : Char} {l : Str}
    (h : sub ++ [ch] <:+: l) : sub <:+: l.dropLast := by
  obtain ⟨s, t, ht⟩ := h
  cases t with
  | nil =>
    have : l = (s ++ sub) ++ [ch] := by rw [← ht]; simp
    rw [this, List.dropLast_concat]
    exact (List.suffix_append s sub).isInfix
  | cons c' t' =>
    have : l = (s ++ sub) ++ ch :: c' :: t' := by rw [← ht]; simp
    rw [this, List.dropLast_append_cons]
    exact ⟨s, ch :: (c' :: t').dropLast, by simp⟩

-- Sanity checks of the model on concrete inputs.
example : sprintf "a %d b".data [['7']] = "a 7 b".data := by decide
example : sprintf "x%sy".data [] = ("x".data ++ missingMark ++ "y".data) := by decide
example : sprintf "ab".data [['z']] = ("ab".data ++ extraMark) := by decide
example : trimSpace " \r ab \n".data = "ab".data := by decide
example : i32 (2 ^ 31 - 1 + 1) = -(2 ^ 31) := by decide
example : goDiv (-7) 2 = -3 := by decide
example :
    (Print (NewConsole false false false) 0 "hi".data []).2 = some "hi\n".data := by
  decide
example :
    (Print (NewConsole false false false) 0 "hi".data []).1.lastPrintLen = 2 := by
  decide

/-! ## Writer glue: MultipleWriter and UnixSocketLogger -/

/-- When every writer succeeds, the fan-out invokes them all and returns
the never-assigned outer named return `(0, nil)`. -/
theorem mw_all_ok (ws : List (Str → Nat × Option String)) (p : Str)
    (h : ∀ w ∈ ws, (w p).2 = none) :
    mwWrite ws p = ((0, none), ws.length) := by
  induction ws with
  | nil => rfl
  | cons w rest ih =>
    have hw : (w p).2 = none := h w (by simp)
    have hrest : ∀ w ∈ rest, (w p).2 = none := fun w hw => h w (by simp [hw])
    simp [mwWrite, hw, ih hrest]

/-- C8: `MultipleWriter.Write` writes the payload to each destination in
list order; at the first destination whose write fails it stops, returns
that destination's `(n, err)` result, and invokes no later destination
(the invocation count is exactly the failing index plus one); if no
destination fails, every destination is invoked and the error is nil. -/
theorem c8_multiple_writer_fanout (ws : List (Str → Nat × Option String)) (p : Str) :
    ((∀ w ∈ ws, (w p).2 = none) →
      (mwWrite ws p).1.2 = none ∧ (mwWrite ws p).2 = ws.length) ∧
    (∀ i : Nat, ∀ h : i < ws.length,
      (∀ j : Nat, ∀ hj : j < ws.length, j < i → ((ws.get ⟨j, hj⟩) p).2 = none) →
      ((ws.get ⟨i, h⟩) p).2.isSome →
      (mwWrite ws p).1 = (ws.get ⟨i, h⟩) p ∧ (mwWrite ws p).2 = i + 1) := by
  constructor
  · intro h
    rw [mw_all_ok ws p h]
    exact ⟨rfl, rfl⟩
  · induction ws with
    | nil => intro i h; simp at h
    | cons w rest ih =>
      intro i h hpre hfail
      cases i with
      | zero =>
        simp only [List.get] at hfail
        simp [mwWrite, hfail]
      | succ i' =>
        have hw : (w p).2 = none := by
          have := hpre 0 (by simp) (by omega)
          simpa [List.get] using this
        have hrec := ih i' (by simpa using h)
          (fun j hj hlt => by
            have := hpre (j + 1) (by simpa using hj) (by omega)
            simpa [List.get] using this)
          (by simpa [List.get] using hfail)
        simp only [List.get] at hfail ⊢
        simp [mwWrite, hw, hrec.1, hrec.2]

/-- Witness for C8 at a concrete writer list: the second writer fails, the
third is never invoked. -/
theorem c8_multiple_writer_fanout_witness :
    (mwWrite [fun p => (p.length, none), fun _ => (1, some "boom"),
      fun p => (p.length, none)] "abc".data).1 = (1, some "boom") ∧
    (mwWrite [fun p => (p.length, none), fun _ => (1, some "boom"),
      fun p => (p.length, none)] "abc".data).2 = 2 :=
  (c8_multiple_writer_fanout [fun p => (p.length, none), fun _ => (1, some "boom"),
      fun p => (p.length, none)] "abc".data).2 1 (by simp)
    (by
      intro j hj hlt
      interval_cases j
      · rfl)
    (by rfl)

/-- C10: on the all-success path the loop-local `n, e :=` shadows the
named return `n`, so `Write` returns byte count 0 with a nil error even
for a non-empty payload. -/
theorem c10_multiple_writer_returns_zero (ws : List (Str → Nat × Option String))
    (p : Str) (h : ∀ w ∈ ws, (w p).2 = none) :
    (mwWrite ws p).1 = (0, none) := by
  rw [mw_all_ok ws p h]

/-- Witness for C10: two writers that each report the full 3-byte count,
yet the fan-out returns 0. -/
theorem c10_multiple_writer_returns_zero_witness :
    ("abc".data.length = 3) ∧
    (mwWrite [fun p => (p.length, none), fun p => (p.length, none)]
      "abc".data).1 = (0, none) :=
  ⟨rfl, c10_multiple_writer_returns_zero
    [fun p => (p.length, none), fun p => (p.length, none)] "abc".data
    (by
      intro w hw
      rcases List.mem_cons.mp hw with h | hw2
      · subst h; rfl
      · rcases List.mem_cons.mp hw2 with h | h2
        · subst h; rfl
        · simp at h2)⟩

/-- C9 counterexample: a console whose socket is established but broken,
and whose path can never be dialed.  The claim says such a call returns no
error; the code retries on the old socket and returns its error. -/
theorem c9_counterexample :
    (∀ k, (SockEnv.mk (fun _ => none) (fun _ _ _ => (0, some "broken"))).dialRes k
        = none) ∧
    (uWrite (some 0) (SockEnv.mk (fun _ => none) (fun _ _ _ => (0, some "broken")))
        "x".data).2.1 = (0, some "broken") :=
  ⟨fun _ => rfl, rfl⟩

/-- C9 amended: on a write failure the write is retried exactly once
after one re-dial; when the socket is nil and cannot be dialed the message
is dropped silently with no error; but when an established socket's write
fails and the re-dial also fails, the retry is issued on the old socket
and the retry's result — including any error — is returned. -/
theorem c9_socket_retry_amended (sock : Option Nat) (env : SockEnv) (msg : Str)
    (c : Nat) :
    ((uWrite sock env msg).2.2.length ≤ 2) ∧
    (sock = none → env.dialRes 0 = none →
      uWrite sock env msg = (none, (0, none), [])) ∧
    (sock = some c → (env.writeRes c 0 (msg ++ ['\n'])).2.isSome →
      env.dialRes 0 = none →
      uWrite sock env msg = (some c, env.writeRes c 1 (msg ++ ['\n']), [c, c])) ∧
    (sock = some c → (env.writeRes c 0 (msg ++ ['\n'])).2.isSome →
      ∀ c2, env.dialRes 0 = some c2 →
      uWrite sock env msg = (some c2, env.writeRes c2 1 (msg ++ ['\n']), [c, c2])) ∧
    (sock = some c → (env.writeRes c 0 (msg ++ ['\n'])).2.isSome = false →
      uWrite sock env msg = (some c, env.writeRes c 0 (msg ++ ['\n']), [c])) := by
  refine ⟨?_, ?_, ?_, ?_, ?_⟩
  · unfold uWrite
    cases sock with
    | none =>
      cases hd : env.dialRes 0 with
      | none => simp
      | some c1 =>
        simp only
        split
        · cases env.dialRes 1 <;> simp
        · simp
    | some c1 =>
      simp only
      split
      · cases env.dialRes 0 <;> simp
      · simp
  · rintro rfl hd
    simp [uWrite, hd]
  · rintro rfl hw hd
    simp [uWrite, hw, hd]
  · rintro rfl hw c2 hd
    simp [uWrite, hw, hd]
  · rintro rfl hw
    simp [uWrite, hw]

/-- Witness for C9 (amended) at a concrete environment: broken socket,
dead path — two write attempts on the old connection, error returned. -/
theorem c9_socket_retry_amended_witness :
    uWrite (some 5) (SockEnv.mk (fun _ => none) (fun _ _ _ => (2, some "epipe")))
        "hi".data
      = (some 5, (2, some "epipe"), [5, 5]) :=
  (c9_socket_retry_amended (some 5)
      (SockEnv.mk (fun _ => none) (fun _ _ _ => (2, some "epipe"))) "hi".data
      5).2.2.1 rfl rfl rfl

/-! ## Structural lemmas about Print -/

/-- `track1` leaves everything but `start` and `progress` unchanged and is
the identity when progress tracking is off. -/
theorem track1_state (c : Console) (t : Int) :
    track1 c t =
      if c.trackProgress then
        (if c.start = none then
          { c with start := some t, progress := i32 (c.progress + 1) }
        else { c with progress := i32 (c.progress + 1) })
      else c := by
  unfold track1
  split
  · split <;> rfl
  · rfl

theorem track1_of_not (c : Console) (t : Int) (h : c.trackProgress = false) :
    track1 c t = c := by
  rw [track1_state, h]
  simp

/-- `emitBody` only updates `lastPrintLen` and `lastProgress`. -/
theorem emitBody_state (c : Console) (t : Int) (m : Str) (a : List Str) :
    ∃ L P, (emitBody c t m a).1 =
      { c with lastPrintLen := L, lastProgress := P } :=
  ⟨_, _, rfl⟩

/-- The fields of the console state seen by the formatting steps. -/
theorem printCtx_fields (c : Console) (t : Int) :
    (printCtx c t).replace = c.replace ∧
    (printCtx c t).limit = c.limit ∧
    (printCtx c t).trackProgress = c.trackProgress ∧
    (printCtx c t).prefixLabel = c.prefixLabel ∧
    (printCtx c t).lastPrintLen = c.lastPrintLen ∧
    (printCtx c t).lastProgress = c.lastProgress ∧
    (printCtx c t).printFunc = c.printFunc ∧
    (printCtx c t).firstTick = c.firstTick ∧
    (printCtx c t).done = c.done := by
  unfold printCtx
  rw [track1_state]
  dsimp only
  split
  · split <;> split <;> simp
  · split <;> simp

theorem printCtx_progress (c : Console) (t : Int) (h : c.trackProgress = true) :
    (printCtx c t).progress = i32 (c.progress + 1) := by
  unfold printCtx
  rw [track1_state, h]
  by_cases hl : c.limit = true <;> by_cases hs : c.start = none <;>
    simp [hl, hs]

theorem printCtx_start_isSome (c : Console) (t : Int) (h : c.trackProgress = true) :
    (printCtx c t).start.isSome = true := by
  unfold printCtx
  rw [track1_state, h]
  by_cases hl : c.limit = true <;> by_cases hs : c.start = none <;>
    simp [hl, hs, Option.isSome_iff_ne_none]

/-- A `Print` call rejected by the rate limiter returns the tracked state
and no output (lines 148-151). -/
theorem Print_discard (c : Console) (t : Int) (m : Str) (a : List Str)
    (hl : c.limit = true) (hle : unixSec t ≤ c.lastPrint) :
    Print c t m a = (track1 c t, none) := by
  unfold Print
  dsimp only
  rw [if_pos]
  constructor
  · rw [track1_state]
    split
    · split <;> simpa using hl
    · exact hl
  · rw [track1_state]
    split
    · split <;> simpa using hle
    · exact hle

/-- A `Print` call that passes the rate-limit gate runs `emitBody` on the
in-call state and always emits. -/
theorem Print_main (c : Console) (t : Int) (m : Str) (a : List Str)
    (h : c.limit = false ∨ c.lastPrint < unixSec t) :
    Print c t m a =
      ((emitBody (printCtx c t) t m a).1, some (emitBody (printCtx c t) t m a).2) := by
  unfold Print
  dsimp only
  rw [if_neg]
  intro hc
  have hl : (track1 c t).limit = c.limit := by
    rw [track1_state]; split
    · split <;> simp
    · rfl
  have hlp : (track1 c t).lastPrint = c.lastPrint := by
    rw [track1_state]; split
    · split <;> simp
    · rfl
  rw [hl] at hc
  rw [hlp] at hc
  rcases h with h | h
  · rw [h] at hc
    exact Bool.false_ne_true hc.1
  · omega

/-- `Print` preserves the configuration flags, prefix, provider and
lifecycle booleans on every path. -/
theorem Print_fields (c : Console) (t : Int) (m : Str) (a : List Str) :
    (Print c t m a).1.replace = c.replace ∧
    (Print c t m a).1.limit = c.limit ∧
    (Print c t m a).1.trackProgress = c.trackProgress ∧
    (Print c t m a).1.prefixLabel = c.prefixLabel ∧
    (Print c t m a).1.printFunc = c.printFunc ∧
    (Print c t m a).1.firstTick = c.firstTick ∧
    (Print c t m a).1.done = c.done := by
  unfold Print
  dsimp only
  split
  · rw [track1_state]
    split
    · split <;> simp
    · simp
  · obtain ⟨L, P, hE⟩ := emitBody_state (printCtx c t) t m a
    rw [hE]
    obtain ⟨h1, h2, h3, h4, _, _, h7, h8, h9⟩ := printCtx_fields c t
    simp [h1, h2, h3, h4, h7, h8, h9]

theorem Print_progress (c : Console) (t : Int) (m : Str) (a : List Str)
    (h : c.trackProgress = true) :
    (Print c t m a).1.progress = i32 (c.progress + 1) := by
  unfold Print
  dsimp only
  split
  · rw [track1_state, h]
    by_cases hs : c.start = none <;> simp [hs]
  · obtain ⟨L, P, hE⟩ := emitBody_state (printCtx c t) t m a
    rw [hE]
    simpa using printCtx_progress c t h

/-! ## Claims about Print tracking, Finish resets, and line-length record -/

/-- C2: with `trackProgress=true`, every `Print` call increments the
completion counter by exactly one — including calls discarded by rate
limiting — so after a sequence of `N` calls with no intervening `Start` or
`Finish` the counter equals its initial value plus `N` (as long as the
`int32` counter does not overflow). -/
theorem c2_progress_counts (c : Console) (inp : List (Int × Str × List Str))
    (htp : c.trackProgress = true) (h0 : 0 ≤ c.progress)
    (hbound : c.progress + inp.length < 2 ^ 31) :
    (printSeq c inp).progress = c.progress + inp.length := by
  induction inp generalizing c with
  | nil => simp [printSeq]
  | cons i rest ih =>
    have hp : (Print c i.1 i.2.1 i.2.2).1.progress = c.progress + 1 := by
      rw [Print_progress c i.1 i.2.1 i.2.2 htp]
      apply i32_eq_self
      · omega
      · have : (0 : Int) ≤ rest.length := by positivity
        simp only [List.length_cons] at hbound
        push_cast at hbound
        omega
    have htp2 : (Print c i.1 i.2.1 i.2.2).1.trackProgress = true := by
      rw [(Print_fields c i.1 i.2.1 i.2.2).2.2.1, htp]
    have hrec := ih (Print c i.1 i.2.1 i.2.2).1 htp2 (by omega)
      (by
        rw [hp]
        simp only [List.length_cons] at hbound
        push_cast at hbound ⊢
        omega)
    rw [printSeq, hrec, hp]
    simp only [List.length_cons]
    push_cast
    ring

/-- Witness for C2: three tracked calls from a fresh console leave the
counter at 3. -/
theorem c2_progress_counts_witness :
    (NewConsole false false true).trackProgress = true ∧
    (printSeq (NewConsole false false true)
      [(0, "a".data, []), (1, "b".data, []), (2, [], [])]).progress = 3 := by
  constructor
  · rfl
  · have h := c2_progress_counts (NewConsole false false true)
      [(0, "a".data, []), (1, "b".data, []), (2, [], [])]
      (by rfl) (by decide) (by decide)
    simpa using h

/-- C3 counterexample: `Finish(printStats=true)` on a console without
progress tracking returns at line 70 before the resets at lines 126-127,
leaving `lastPrint` and `progress` untouched. -/
theorem c3_finish_counterexample :
    (Finish { NewConsole false false false with lastPrint := 7, progress := 3 }
      0 true []).1.lastPrint = 7 ∧
    (Finish { NewConsole false false false with lastPrint := 7, progress := 3 }
      0 true []).1.progress = 3 := by
  decide

/-- C3 amended: for every call to `Finish` except the early-return case
`printStats=true` with `trackProgress=false`, the rate-limit timestamp and
the completion counter are both zero afterwards. -/
theorem c3_finish_resets_amended (c : Console) (t : Int) (ps : Bool)
    (em : List Str) (h : ps = false ∨ c.trackProgress = true) :
    (Finish c t ps em).1.lastPrint = 0 ∧ (Finish c t ps em).1.progress = 0 := by
  unfold Finish
  dsimp only
  rw [if_neg]
  · constructor <;> rfl
  · rintro ⟨hps, htp⟩
    rcases h with h | h
    · rw [h] at hps
      exact Bool.false_ne_true hps
    · exact htp h

/-- Witness for C3 (amended) at a concrete state: `printStats=false`
resets both fields. -/
theorem c3_finish_resets_amended_witness :
    (Finish { NewConsole false true false with lastPrint := 5, progress := 2 }
      0 false []).1.lastPrint = 0 ∧
    (Finish { NewConsole false true false with lastPrint := 5, progress := 2 }
      0 false []).1.progress = 0 :=
  c3_finish_resets_amended
    { NewConsole false true false with lastPrint := 5, progress := 2 }
    0 false [] (Or.inl rfl)

/-- The recorded line length after `emitBody`: zero when the wrapped
template ends in a newline, else the trimmed length of the emitted text. -/
theorem emitBody_lastPrintLen (c : Console) (t : Int) (m : Str) (a : List Str) :
    (emitBody c t m a).1.lastPrintLen =
      if endsNL (msgStage c t m a).1 then 0
      else (trimSpace (emitBody c t m a).2).length := by
  by_cases hnl : endsNL (msgStage c t m a).1 <;>
    simp [emitBody, hnl]

/-- C7 counterexample: in non-replace mode a missing newline is appended
before formatting, so the emitted text is newline-terminated while the
recorded `lastPrintLen` is the trimmed length 2, not zero. -/
theorem c7_counterexample :
    (Print (NewConsole false false false) 0 "hi".data []).2 = some "hi\n".data ∧
    endsNL "hi\n".data = true ∧
    (Print (NewConsole false false false) 0 "hi".data []).1.lastPrintLen = 2 := by
  decide

/-- C7 amended: after every `Print` call that emits output, the recorded
`lastPrintLen` is zero if the wrapped message template (before newline
forcing and argument substitution) ends in a newline, and otherwise is the
length of the emitted text with surrounding whitespace trimmed. -/
theorem c7_lastlen_amended (c : Console) (t : Int) (m : Str) (a : List Str)
    (s : Str) (h : (Print c t m a).2 = some s) :
    (Print c t m a).1.lastPrintLen =
      if endsNL (msgStage (printCtx c t) t m a).1 then 0
      else (trimSpace s).length := by
  by_cases hg : c.limit = true ∧ unixSec t ≤ c.lastPrint
  · rw [Print_discard c t m a hg.1 hg.2] at h
    simp at h
  · have hm : c.limit = false ∨ c.lastPrint < unixSec t := by
      by_cases hl : c.limit = true
      · right
        by_contra hlt
        exact hg ⟨hl, by omega⟩
      · exact Or.inl (Bool.not_eq_true _ ▸ Bool.eq_false_iff.mpr hl)
    rw [Print_main c t m a hm] at h ⊢
    simp only [Option.some.injEq] at h
    subst h
    exact emitBody_lastPrintLen (printCtx c t) t m a

/-- Witness for C7 (amended) at the concrete non-replace console: the
wrapped template "hi" has no newline, and the recorded length is the
trimmed length of the emitted "hi\n". -/
theorem c7_lastlen_amended_witness :
    (Print (NewConsole false false false) 0 "hi".data []).1.lastPrintLen =
      if endsNL (msgStage (printCtx (NewConsole false false false) 0) 0
          "hi".data []).1 then 0
      else (trimSpace "hi\n".data).length :=
  c7_lastlen_amended (NewConsole false false false) 0 "hi".data [] "hi\n".data
    (by decide)

/-! ## Claim C1: rate limiting -/

theorem printCtx_lastPrint (c : Console) (t : Int) :
    (printCtx c t).lastPrint =
      if c.limit = true then unixSec t else c.lastPrint := by
  unfold printCtx
  rw [track1_state]
  by_cases hl : c.limit = true <;> by_cases htp : c.trackProgress = true <;>
    by_cases hs : c.start = none <;> simp [hl, htp, hs]

/-- An accepted rate-limited `Print` records its second-epoch. -/
theorem Print_lastPrint_emit (c : Console) (t : Int) (m : Str) (a : List Str)
    (hl : c.limit = true) (hacc : c.lastPrint < unixSec t) :
    (Print c t m a).1.lastPrint = unixSec t := by
  rw [Print_main c t m a (Or.inr hacc)]
  obtain ⟨L, P, hE⟩ := emitBody_state (printCtx c t) t m a
  dsimp only
  rw [hE]
  show (printCtx c t).lastPrint = unixSec t
  rw [printCtx_lastPrint, if_pos hl]

/-- `Print` leaves the start time set whenever progress is tracked. -/
theorem Print_start_isSome (c : Console) (t : Int) (m : Str) (a : List Str)
    (htp : c.trackProgress = true) :
    (Print c t m a).1.start.isSome = true := by
  unfold Print
  dsimp only
  split
  · rw [track1_state, htp]
    by_cases hs : c.start = none <;> simp [hs, Option.isSome_iff_ne_none]
  · obtain ⟨L, P, hE⟩ := emitBody_state (printCtx c t) t m a
    rw [hE]
    simpa using printCtx_start_isSome c t htp

/-- C1: with rate limiting on, of two `Print` calls in the same wall-clock
second (the first accepted), only the first emits; the second is discarded
with no state change beyond the already-applied progress increment; and
any `Print` whose second-epoch strictly exceeds the last accepted epoch
emits a line. -/
theorem c1_rate_limit (c : Console) (t1 t2 : Int) (m1 m2 : Str)
    (a1 a2 : List Str) (hl : c.limit = true) (hacc : c.lastPrint < unixSec t1)
    (heq : unixSec t2 = unixSec t1) :
    (Print c t1 m1 a1).2.isSome = true ∧
    (Print (Print c t1 m1 a1).1 t2 m2 a2).2 = none ∧
    (Print (Print c t1 m1 a1).1 t2 m2 a2).1 =
      (if c.trackProgress then
        { (Print c t1 m1 a1).1 with
            progress := i32 ((Print c t1 m1 a1).1.progress + 1) }
      else (Print c t1 m1 a1).1) := by
  have h1some : (Print c t1 m1 a1).2.isSome = true := by
    rw [Print_main c t1 m1 a1 (Or.inr hacc)]
    rfl
  have hl1 : (Print c t1 m1 a1).1.limit = true := by
    rw [(Print_fields c t1 m1 a1).2.1, hl]
  have htp1 : (Print c t1 m1 a1).1.trackProgress = c.trackProgress :=
    (Print_fields c t1 m1 a1).2.2.1
  have hlp1 : (Print c t1 m1 a1).1.lastPrint = unixSec t1 :=
    Print_lastPrint_emit c t1 m1 a1 hl hacc
  have hle2 : unixSec t2 ≤ (Print c t1 m1 a1).1.lastPrint := by
    rw [hlp1, heq]
  have hdisc := Print_discard (Print c t1 m1 a1).1 t2 m2 a2 hl1 hle2
  refine ⟨h1some, by rw [hdisc], ?_⟩
  rw [hdisc]
  dsimp only
  rw [track1_state, htp1]
  by_cases htp : c.trackProgress = true
  · rw [htp]
    have hss : (Print c t1 m1 a1).1.start.isSome = true :=
      Print_start_isSome c t1 m1 a1 htp
    have hsn : ¬ (Print c t1 m1 a1).1.start = none := by
      intro hcon
      rw [hcon] at hss
      simp at hss
    simp [hsn]
  · have : c.trackProgress = false := Bool.not_eq_true _ ▸ Bool.eq_false_iff.mpr htp
    rw [this]
    simp

/-- Witness for C1 at concrete instants 1.5s and 1.9s (same second-epoch):
one line emitted, the second call discarded with only the counter
incremented. -/
theorem c1_rate_limit_witness :
    (Print (NewConsole false true true) 1500000000 "a".data []).2.isSome = true ∧
    (Print (Print (NewConsole false true true) 1500000000 "a".data []).1
      1900000000 "b".data []).2 = none ∧
    (Print (Print (NewConsole false true true) 1500000000 "a".data []).1
      1900000000 "b".data []).1 =
      (if (NewConsole false true true).trackProgress then
        { (Print (NewConsole false true true) 1500000000 "a".data []).1 with
            progress :=
              i32 ((Print (NewConsole false true true) 1500000000
                "a".data []).1.progress + 1) }
      else (Print (NewConsole false true true) 1500000000 "a".data []).1) :=
  c1_rate_limit (NewConsole false true true) 1500000000 1900000000
    "a".data "b".data [] [] (by decide) (by decide) (by decide)

/-! ## Claim C5: replace-mode padding -/

/-- A passed rate-limit gate in propositional form. -/
theorem not_gate (c : Console) (t : Int)
    (hg : ¬ (c.limit = true ∧ unixSec t ≤ c.lastPrint)) :
    c.limit = false ∨ c.lastPrint < unixSec t := by
  by_cases hl : c.limit = true
  · right
    by_contra hlt
    exact hg ⟨hl, by omega⟩
  · exact Or.inl (Bool.eq_false_iff.mpr hl)

/-- Inversion: an emitting `Print` took the main path. -/
theorem Print_some_inv (c : Console) (t : Int) (m : Str) (a : List Str) (s : Str)
    (h : (Print c t m a).2 = some s) :
    Print c t m a =
      ((emitBody (printCtx c t) t m a).1, some (emitBody (printCtx c t) t m a).2) ∧
    s = (emitBody (printCtx c t) t m a).2 := by
  by_cases hg : c.limit = true ∧ unixSec t ≤ c.lastPrint
  · rw [Print_discard c t m a hg.1 hg.2] at h
    simp at h
  · have hmain := Print_main c t m a (not_gate c t hg)
    rw [hmain] at h
    simp only [Option.some.injEq] at h
    exact ⟨hmain, h.symm⟩

/-- The replace-mode padding output (lines 188-197) when the formatted
text is no longer than the recorded previous length. -/
theorem emitBody_replace (c : Console) (t : Int) (m : Str) (a : List Str)
    (hr : c.replace = true)
    (hlen : (replFormatted c t m a).length ≤ c.lastPrintLen) :
    (emitBody c t m a).2 =
      (if endsNL (msgStage c t m a).1 then
        ((replFormatted c t m a).dropLast ++
          List.replicate (padCountOf c t m a).toNat ' ') ++ ['\n']
      else
        replFormatted c t m a ++
          List.replicate (padCountOf c t m a).toNat ' ') := by
  unfold emitBody
  dsimp only
  rw [if_pos hr, if_pos hlen]
  by_cases hnl : endsNL (msgStage c t m a).1 <;> simp [hnl]

/-- Padding core facts at the in-call console: the pad count is at least
one, the emitted text is at least one character longer than the previous
recorded length, and a trailing newline is preserved. -/
theorem c5core (c : Console) (t : Int) (m : Str) (a : List Str)
    (hr : c.replace = true)
    (hlen : (replFormatted c t m a).length ≤ c.lastPrintLen) :
    c.lastPrintLen ≤ (emitBody c t m a).2.length ∧
    1 ≤ padCountOf c t m a ∧
    (endsNL (msgStage c t m a).1 = true → endsNL (emitBody c t m a).2 = true) := by
  have hE := emitBody_replace c t m a hr hlen
  by_cases hnl : endsNL (msgStage c t m a).1 = true
  · rw [if_pos hnl] at hE
    have hm2 : (replFormatted c t m a).dropLast.length ≤ (replFormatted c t m a).length := by
      rw [List.length_dropLast]
      omega
    have hT : (trimSpace (replFormatted c t m a).dropLast).length ≤
        (replFormatted c t m a).dropLast.length := trimSpace_length_le _
    have hpad : padCountOf c t m a =
        (c.lastPrintLen : Int) -
          ((trimSpace (replFormatted c t m a).dropLast).length : Int) + 1 := by
      unfold padCountOf
      dsimp only
      rw [if_pos hnl]
    refine ⟨?_, ?_, fun _ => ?_⟩
    · rw [hE]
      simp only [List.length_append, List.length_replicate, List.length_cons,
        List.length_nil]
      omega
    · rw [hpad]
      have : ((trimSpace (replFormatted c t m a).dropLast).length : Int) ≤
          (c.lastPrintLen : Int) := by
        omega
      omega
    · rw [hE]
      exact endsNL_concat _
  · rw [if_neg hnl] at hE
    have hT : (trimSpace (replFormatted c t m a)).length ≤
        (replFormatted c t m a).length := trimSpace_length_le _
    have hpad : padCountOf c t m a =
        (c.lastPrintLen : Int) -
          ((trimSpace (replFormatted c t m a)).length : Int) + 1 := by
      unfold padCountOf
      dsimp only
      rw [if_neg hnl]
    refine ⟨?_, ?_, fun hcon => absurd hcon hnl⟩
    · rw [hE]
      simp only [List.length_append, List.length_replicate]
      omega
    · rw [hpad]
      have : ((trimSpace (replFormatted c t m a)).length : Int) ≤
          (c.lastPrintLen : Int) := by
        omega
      omega

/-- C5: in replace mode, whenever the newly formatted line is no longer
than the previously recorded line length, `Print` pads with trailing
spaces (the count computed from the whitespace-trimmed line, always at
least one, never negative) so the emitted text is at least as long as the
previous line, preserving a trailing newline when the line had one. -/
theorem c5_replace_padding (c : Console) (t : Int) (m : Str) (a : List Str)
    (s : Str) (hr : c.replace = true)
    (hlen : (replFormatted (printCtx c t) t m a).length ≤ c.lastPrintLen)
    (he : (Print c t m a).2 = some s) :
    c.lastPrintLen ≤ s.length ∧
    1 ≤ padCountOf (printCtx c t) t m a ∧
    (endsNL (msgStage (printCtx c t) t m a).1 = true → endsNL s = true) := by
  obtain ⟨hmain, hs⟩ := Print_some_inv c t m a s he
  obtain ⟨hrept, _, _, _, hLt, _, _, _, _⟩ := printCtx_fields c t
  have hrx : (printCtx c t).replace = true := by rw [hrept, hr]
  have hlenx : (replFormatted (printCtx c t) t m a).length ≤
      (printCtx c t).lastPrintLen := by rw [hLt]; exact hlen
  have hcore := c5core (printCtx c t) t m a hrx hlenx
  rw [hLt] at hcore
  rw [hs]
  exact hcore

/-- Witness for C5 at a short "ab" print after a 10-character line: the
pad count is 9, the emitted text has length 12. -/
theorem c5_replace_padding_witness :
    ({ NewConsole true false false with lastPrintLen := 10 } : Console).lastPrintLen ≤
      ("\rab         ".data).length ∧
    1 ≤ padCountOf (printCtx { NewConsole true false false with lastPrintLen := 10 } 0)
      0 "ab".data [] ∧
    (endsNL (msgStage
        (printCtx { NewConsole true false false with lastPrintLen := 10 } 0)
        0 "ab".data []).1 = true →
      endsNL "\rab         ".data = true) :=
  c5_replace_padding { NewConsole true false false with lastPrintLen := 10 }
    0 "ab".data [] "\rab         ".data rfl (by decide) (by decide)

/-! ## Claim C6: flags transiently disabled around Start/Finish banners -/

/-- A `Println` on a console with rate limiting off always emits. -/
theorem Println_some (c : Console) (t : Int) (m : Str) (a : List Str)
    (hl : c.limit = false) :
    (Println c t m a).2 = some (emitBody (printCtx c t) t (m ++ ['\n']) a).2 := by
  unfold Println
  rw [Print_main c t (m ++ ['\n']) a (Or.inl hl)]

/-- A `Println` on a console with rate limiting off contributes a line. -/
theorem Println_ne_nil (c : Console) (t : Int) (m : Str) (a : List Str)
    (hl : c.limit = false) :
    (Println c t m a).2.toList ≠ [] := by
  rw [Println_some c t m a hl]
  simp

/-! ## Claim C4: Finish statistics -/

theorem printCtx_id (c : Console) (t : Int) (hl : c.limit = false)
    (htp : c.trackProgress = false) : printCtx c t = c := by
  unfold printCtx
  rw [track1_of_not c t htp]
  simp [hl]

theorem msgStage_plain (c : Console) (t : Int) (m : Str) (a : List Str)
    (htp : c.trackProgress = false) (hm : m ≠ []) :
    msgStage c t m a =
      (if c.prefixLabel ≠ [] then c.prefixLabel ++ " | ".data ++ m else m, a) := by
  unfold msgStage
  dsimp only
  rw [htp,
    if_neg (fun hcon : m = [] ∧ a = [] ∧ c.printFunc.isSome = true => hm hcon.1)]
  simp only [Bool.false_eq_true, if_false]
  split <;> rfl

/-- The emitted text of `emitBody`, by rendering branch. -/
theorem emitBody_msg (c : Console) (t : Int) (m : Str) (a : List Str) :
    (emitBody c t m a).2 =
      (if c.replace then
        (if (replFormatted c t m a).length ≤ c.lastPrintLen then
          (if endsNL (msgStage c t m a).1 then
            ((replFormatted c t m a).dropLast ++
              List.replicate (padCountOf c t m a).toNat ' ') ++ ['\n']
          else replFormatted c t m a ++ List.replicate (padCountOf c t m a).toNat ' ')
        else replFormatted c t m a)
      else
        (if (msgStage c t m a).2 ≠ [] then
          sprintf (if ¬ endsNL (msgStage c t m a).1 then (msgStage c t m a).1 ++ ['\n']
            else (msgStage c t m a).1) (msgStage c t m a).2
        else (if ¬ endsNL (msgStage c t m a).1 then (msgStage c t m a).1 ++ ['\n']
          else (msgStage c t m a).1))) := by
  unfold emitBody
  dsimp only
  by_cases hr : c.replace = true
  · rw [if_pos hr, if_pos hr]
    by_cases hlen : (replFormatted c t m a).length ≤ c.lastPrintLen
    · rw [if_pos hlen, if_pos hlen]
      by_cases hnl : endsNL (msgStage c t m a).1 = true <;> simp [hnl]
    · rw [if_neg hlen, if_neg hlen]
  · rw [if_neg hr, if_neg hr]

/-- A `%`-free segment of a `Println` format string (followed by one more
`%`-free non-verb character) survives, through prefix wrapping, carriage
return forcing, argument substitution and replace-mode padding, as an
infix of the emitted line — provided rate limiting and progress tracking
are off during the call, as they are for the `Start`/`Finish` banners. -/
theorem print_infix_line (c : Console) (t : Int) (m : Str) (a : List Str)
    (sub : Str) (ch : Char) (m0 v : Str)
    (hl : c.limit = false) (htp : c.trackProgress = false)
    (hdec : m ++ ['\n'] = m0 ++ ((sub ++ [ch]) ++ v))
    (hpf : pctFree (sub ++ [ch]))
    (hhs : (sub ++ [ch]).head? ≠ some 's')
    (hhd : (sub ++ [ch]).head? ≠ some 'd') :
    ∃ s, (Println c t m a).2 = some s ∧ sub <:+: s := by
  have hm : m ++ ['\n'] ≠ [] := by simp
  have hctx : printCtx c t = c := printCtx_id c t hl htp
  unfold Println
  rw [Print_main c t (m ++ ['\n']) a (Or.inl hl), hctx]
  refine ⟨(emitBody c t (m ++ ['\n']) a).2, rfl, ?_⟩
  have hstage := msgStage_plain c t (m ++ ['\n']) a htp hm
  have hstageW : (msgStage c t (m ++ ['\n']) a).1 =
      (if c.prefixLabel ≠ [] then c.prefixLabel ++ " | ".data else []) ++
        (m ++ ['\n']) := by
    rw [hstage]
    split <;> simp
  have hargs : (msgStage c t (m ++ ['\n']) a).2 = a := by rw [hstage]
  set W : Str := if c.prefixLabel ≠ [] then c.prefixLabel ++ " | ".data else []
    with hW
  have hnl : endsNL (msgStage c t (m ++ ['\n']) a).1 = true := by
    rw [hstageW, show W ++ (m ++ ['\n']) = (W ++ m) ++ ['\n'] from by simp]
    exact endsNL_concat _
  have hdecW : (msgStage c t (m ++ ['\n']) a).1 =
      (W ++ m0) ++ ((sub ++ [ch]) ++ v) := by
    rw [hstageW, hdec]
    simp
  have hsubP : sub <+: sub ++ [ch] := List.prefix_append sub [ch]
  -- the segment survives the replace-branch formatted text
  have hF : (sub ++ [ch]) <:+: replFormatted c t (m ++ ['\n']) a := by
    unfold replFormatted
    dsimp only
    rw [hdecW, hargs]
    by_cases ha : a = []
    · subst ha
      simp only [ne_eq, not_true_eq_false, if_false]
      split
      · rw [show '\r' :: ((W ++ m0) ++ ((sub ++ [ch]) ++ v)) =
          ('\r' :: (W ++ m0)) ++ ((sub ++ [ch]) ++ v) from rfl]
        exact ⟨'\r' :: (W ++ m0), v, by simp⟩
      · exact ⟨W ++ m0, v, by simp⟩
    · rw [if_pos ha]
      split
      · rw [show '\r' :: ((W ++ m0) ++ ((sub ++ [ch]) ++ v)) =
          ('\r' :: (W ++ m0)) ++ ((sub ++ [ch]) ++ v) from rfl]
        exact sprintf_infix_mid (sub ++ [ch]) hpf hhs hhd
          ('\r' :: (W ++ m0)).length ('\r' :: (W ++ m0)) v a le_rfl
      · exact sprintf_infix_mid (sub ++ [ch]) hpf hhs hhd
          (W ++ m0).length (W ++ m0) v a le_rfl
  rw [emitBody_msg]
  by_cases hr : c.replace = true
  · rw [if_pos hr]
    by_cases hlen : (replFormatted c t (m ++ ['\n']) a).length ≤ c.lastPrintLen
    · rw [if_pos hlen, if_pos hnl]
      have h1 : sub <:+: (replFormatted c t (m ++ ['\n']) a).dropLast :=
        infix_dropLast hF
      exact (h1.trans (List.prefix_append _ _).isInfix).trans
        (List.prefix_append _ _).isInfix
    · rw [if_neg hlen]
      exact hsubP.isInfix.trans hF
  · rw [if_neg hr, hargs]
    have hite : (if ¬ endsNL (msgStage c t (m ++ ['\n']) a).1 = true
        then (msgStage c t (m ++ ['\n']) a).1 ++ ['\n']
        else (msgStage c t (m ++ ['\n']) a).1) =
        (msgStage c t (m ++ ['\n']) a).1 := by
      rw [hnl]
      simp
    rw [hite]
    by_cases ha : a = []
    · subst ha
      rw [if_neg (by simp), hdecW]
      exact hsubP.isInfix.trans ⟨W ++ m0, v, by simp⟩
    · rw [if_pos ha, hdecW]
      exact hsubP.isInfix.trans
        (sprintf_infix_mid (sub ++ [ch]) hpf hhs hhd
          (W ++ m0).length (W ++ m0) v a le_rfl)

/-- C4: `Finish(printStats=true)` with progress tracking enabled emits a
line containing "0 units complete" when the counter is zero; when the
counter N is positive the summary's average-per-unit duration is
`totalDuration / N` raised to a minimum of one time-unit, the
units-per-second figure is one time-unit (10^9 ns) integer-divided by that
average — hence 0 whenever the average exceeds one time-unit — and the
summary line is emitted. -/
theorem c4_finish_stats (c : Console) (t : Int) (em : List Str)
    (htp : c.trackProgress = true) :
    (c.progress = 0 → ∃ s rest, (Finish c t true em).2 = s :: rest ∧
      "0 units complete".data <:+: s) ∧
    (0 < c.progress → startNsOf c ≤ t →
      finishAvg c t = max 1 (goDiv (t - startNsOf c) c.progress) ∧
      finishUps c t = goDiv 1000000000 (finishAvg c t) ∧
      (1000000000 < finishAvg c t → finishUps c t = 0) ∧
      ∃ s rest, (Finish c t true em).2 = s :: rest ∧
        " units complete in".data <:+: s) := by
  constructor
  · intro hz
    unfold Finish
    dsimp only
    rw [if_neg (by simp [htp])]
    rw [if_pos hz]
    dsimp only
    obtain ⟨s, hsome, hinf⟩ := print_infix_line
      { c with limit := false, trackProgress := false, done := true } t
      "Finish: %s | 0 units complete".data [fmtDateTime t]
      "0 units complete".data '\n' "Finish: %s | ".data []
      rfl rfl (by decide) (by unfold pctFree; decide) (by decide) (by decide)
    rw [hsome]
    exact ⟨s, _, rfl, hinf⟩
  · intro hp hD
    have hq : 0 ≤ goDiv (t - startNsOf c) c.progress :=
      Int.tdiv_nonneg (by omega) (by omega)
    have havg : finishAvg c t = max 1 (goDiv (t - startNsOf c) c.progress) := by
      unfold finishAvg
      dsimp only
      by_cases h0 : goDiv (t - startNsOf c) c.progress = 0
      · rw [if_pos h0, h0]
        simp
      · rw [if_neg h0, max_eq_right (by omega)]
    refine ⟨havg, rfl, ?_, ?_⟩
    · intro hgt
      show goDiv 1000000000 (finishAvg c t) = 0
      exact Int.tdiv_eq_zero_of_lt (by omega) hgt
    · have hz : ¬ c.progress = 0 := by omega
      unfold Finish
      dsimp only
      rw [if_neg (by simp [htp])]
      rw [if_neg hz]
      dsimp only
      obtain ⟨s, hsome, hinf⟩ := print_infix_line
        { c with limit := false, trackProgress := false, done := true } t
        "Finish: %s | %d units complete in %s | avg %s per unit | avg %d/s".data
        [fmtDateTime t, renderInt c.progress,
          fmtDuration (t - startNsOf
            { c with limit := false, trackProgress := false, done := true }),
          fmtDuration (finishAvg
            { c with limit := false, trackProgress := false, done := true } t),
          renderInt (finishUps
            { c with limit := false, trackProgress := false, done := true } t)]
        " units complete in".data ' ' "Finish: %s | %d".data
        "%s | avg %s per unit | avg %d/s\n".data
        rfl rfl (by decide) (by unfold pctFree; decide) (by decide) (by decide)
      rw [hsome]
      exact ⟨s, _, rfl, hinf⟩

/-- Witness for C4 at 5 units in 10 seconds: the average is 2s per unit,
so the units-per-second figure truncates to 0, and the summary line is
emitted. -/
theorem c4_finish_stats_witness :
    finishAvg { NewConsole false false true with progress := 5, start := some 0 }
      10000000000 = 2000000000 ∧
    finishUps { NewConsole false false true with progress := 5, start := some 0 }
      10000000000 = 0 ∧
    ∃ s rest,
      (Finish { NewConsole false false true with progress := 5, start := some 0 }
        10000000000 true []).2 = s :: rest ∧
      " units complete in".data <:+: s := by
  have h := (c4_finish_stats
    { NewConsole false false true with progress := 5, start := some 0 }
    10000000000 [] rfl).2 (by decide) (by decide)
  exact ⟨by decide, by decide, h.2.2.2⟩

/-- C6: `Start` and `Finish` restore the `limit` and `trackProgress`
flags on every path; `Start` always emits exactly one banner line, whose
text is invariant under both entry flags; `Finish`'s output is invariant
under the rate-limit flag and its stats line is always emitted when due
(never suppressed); and the banner and both summary lines are exactly the
output of a `Println` executed with `limit` and `trackProgress` disabled,
whose message stage is the plain prefix-wrapped template with the
original argument list — not the `"Running %s | %d | …"` progress wrap
with throughput arguments appended, so the lines are never wrapped with
the progress annotation. -/
theorem c6_flags_and_banners (c : Console) (t : Int) (pfx : Str) (ps : Bool)
    (em : List Str) (b1 b2 : Bool) :
    ((Start c t pfx).1.limit = c.limit ∧
      (Start c t pfx).1.trackProgress = c.trackProgress) ∧
    ((Finish c t ps em).1.limit = c.limit ∧
      (Finish c t ps em).1.trackProgress = c.trackProgress) ∧
    (Start c t pfx).2.length = 1 ∧
    (Start { c with limit := b1, trackProgress := b2 } t pfx).2 =
      (Start c t pfx).2 ∧
    (Finish { c with limit := b1 } t ps em).2 = (Finish c t ps em).2 ∧
    (ps = true → c.trackProgress = true → (Finish c t ps em).2 ≠ []) ∧
    ((Start c t pfx).2.head? =
      (Println { c with done := false, start := some t, prefixLabel := pfx, limit := false, trackProgress := false } t
        "Start: %s".data [fmtDateTime t]).2 ∧
      msgStage { c with done := false, start := some t, prefixLabel := pfx, limit := false, trackProgress := false } t
          ("Start: %s".data ++ ['\n']) [fmtDateTime t] =
        (if pfx ≠ [] then pfx ++ " | ".data ++ ("Start: %s".data ++ ['\n'])
          else "Start: %s".data ++ ['\n'], [fmtDateTime t])) ∧
    (ps = true → c.trackProgress = true → c.progress = 0 →
      (Finish c t ps em).2.head? =
        (Println { c with limit := false, trackProgress := false, done := true } t
          "Finish: %s | 0 units complete".data [fmtDateTime t]).2 ∧
      msgStage { c with limit := false, trackProgress := false, done := true } t
          ("Finish: %s | 0 units complete".data ++ ['\n']) [fmtDateTime t] =
        (if c.prefixLabel ≠ [] then
            c.prefixLabel ++ " | ".data ++
              ("Finish: %s | 0 units complete".data ++ ['\n'])
          else "Finish: %s | 0 units complete".data ++ ['\n'],
          [fmtDateTime t])) ∧
    (ps = true → c.trackProgress = true → c.progress ≠ 0 →
      (Finish c t ps em).2.head? =
        (Println { c with limit := false, trackProgress := false, done := true } t
          "Finish: %s | %d units complete in %s | avg %s per unit | avg %d/s".data
          [fmtDateTime t, renderInt c.progress,
            fmtDuration (t - startNsOf
              { c with limit := false, trackProgress := false, done := true }),
            fmtDuration (finishAvg
              { c with limit := false, trackProgress := false, done := true } t),
            renderInt (finishUps
              { c with limit := false, trackProgress := false, done := true } t)]).2 ∧
      msgStage { c with limit := false, trackProgress := false, done := true } t
          ("Finish: %s | %d units complete in %s | avg %s per unit | avg %d/s".data
            ++ ['\n'])
          [fmtDateTime t, renderInt c.progress,
            fmtDuration (t - startNsOf
              { c with limit := false, trackProgress := false, done := true }),
            fmtDuration (finishAvg
              { c with limit := false, trackProgress := false, done := true } t),
            renderInt (finishUps
              { c with limit := false, trackProgress := false, done := true } t)] =
        (if c.prefixLabel ≠ [] then
            c.prefixLabel ++ " | ".data ++
              ("Finish: %s | %d units complete in %s | avg %s per unit | avg %d/s".data
                ++ ['\n'])
          else
            "Finish: %s | %d units complete in %s | avg %s per unit | avg %d/s".data
              ++ ['\n'],
          [fmtDateTime t, renderInt c.progress,
            fmtDuration (t - startNsOf
              { c with limit := false, trackProgress := false, done := true }),
            fmtDuration (finishAvg
              { c with limit := false, trackProgress := false, done := true } t),
            renderInt (finishUps
              { c with limit := false, trackProgress := false, done := true } t)])) := by
  refine ⟨⟨rfl, rfl⟩, ?_, rfl, rfl, ?_, ?_, ⟨?_, ?_⟩, ?_, ?_⟩
  · unfold Finish
    dsimp only
    repeat' split
    all_goals exact ⟨rfl, rfl⟩
  · unfold Finish
    dsimp only
    repeat' split
    all_goals rfl
  · intro hps htp
    unfold Finish
    dsimp only
    rw [if_neg (by simp [hps, htp])]
    rw [if_pos hps]
    by_cases hz : c.progress = 0
    · rw [if_pos hz]
      dsimp only
      intro hcon
      rcases List.append_eq_nil.mp hcon with ⟨h1, h2⟩
      exact Println_ne_nil _ t _ _ rfl h1
    · rw [if_neg hz]
      dsimp only
      intro hcon
      rcases List.append_eq_nil.mp hcon with ⟨h1, h2⟩
      exact Println_ne_nil _ t _ _ rfl h1
  · unfold Start
    dsimp only
    rw [Println_some { c with done := false, start := some t, prefixLabel := pfx, limit := false, trackProgress := false } t
      "Start: %s".data [fmtDateTime t] rfl]
    simp
  · exact msgStage_plain _ t _ _ rfl (by simp)
  · intro hps htp hz
    subst hps
    constructor
    · unfold Finish
      dsimp only
      rw [if_neg (by simp [htp])]
      rw [if_pos hz]
      dsimp only
      rw [Println_some { c with limit := false, trackProgress := false, done := true }
        t "Finish: %s | 0 units complete".data [fmtDateTime t] rfl]
      simp
    · exact msgStage_plain _ t _ _ rfl (by simp)
  · intro hps htp hz
    subst hps
    constructor
    · unfold Finish
      dsimp only
      rw [if_neg (by simp [htp])]
      rw [if_neg hz]
      dsimp only
      rw [Println_some { c with limit := false, trackProgress := false, done := true }
        t "Finish: %s | %d units complete in %s | avg %s per unit | avg %d/s".data
        [fmtDateTime t, renderInt c.progress,
          fmtDuration (t - startNsOf
            { c with limit := false, trackProgress := false, done := true }),
          fmtDuration (finishAvg
            { c with limit := false, trackProgress := false, done := true } t),
          renderInt (finishUps
            { c with limit := false, trackProgress := false, done := true } t)] rfl]
      simp
    · exact msgStage_plain _ t _ _ rfl (by simp)
